import Mathlib

set_option maxHeartbeats 1000000
set_option linter.unnecessarySeqFocus false

namespace Retainit

/-!
A shallow embedding of the caching core of the `retainit` repository
(`src/retainit/core.py`, `src/retainit/backends/memory.py`,
`src/retainit/backends/disk.py`).

Conventions:
* Wall-clock time (`time.time()`) is a `Nat` supplied explicitly as `now`.
* A Python value is `Option α`: `Option.none` stands for Python `None`
  (a cached function may legitimately return `None`).
* Python dicts are insertion-ordered association lists with unique keys;
  updating an existing key keeps its position, a new key is appended
  (CPython dict semantics).
* `asyncio.Lock` is not reentrant: acquiring a lock that is already held
  blocks the task forever.  Each backend operation therefore returns a
  `PyRes`: either `ok` with the return value and final state, or
  `deadlock` with the state at the moment the task blocked.
-/

/-- A stored entry of `MemoryCache.cache`: the tuple
`(value, expiry, last_access)` from memory.py line 37. -/
structure MemEntry (α : Type) where
  value : Option α
  expiry : Option Nat
  lastAccess : Nat
deriving Repr, DecidableEq

/-- State of a `MemoryCache` instance: the dict `self.cache`, the bound
`self.max_size`, and whether `self.lock` is currently held. -/
structure MemState (α : Type) where
  cache : List (String × MemEntry α)
  maxSize : Option Nat
  locked : Bool
deriving Repr, DecidableEq

/-- Python `key in d` / `d[key]` on an insertion-ordered dict. -/
def dictLookup (k : String) : List (String × β) → Option β
  | [] => none
  | (k', v) :: rest => if k' = k then some v else dictLookup k rest

/-- Python `d[key] = v`: update in place if present, else append. -/
def dictInsert (k : String) (v : β) : List (String × β) → List (String × β)
  | [] => [(k, v)]
  | (k', v') :: rest =>
    if k' = k then (k, v) :: rest else (k', v') :: dictInsert k v rest

/-- Python `del d[key]` (keys are unique, so removing the first match). -/
def dictErase (k : String) : List (String × β) → List (String × β)
  | [] => []
  | (k', v') :: rest => if k' = k then rest else (k', v') :: dictErase k rest

/-- Python truthiness test `expiry and time.time() > expiry`
(memory.py line 56; `None` and `0` are falsy). -/
def expiredAt (now : Nat) : Option Nat → Bool
  | none => false
  | some e => e != 0 && decide (e < now)

/-- Python `time.time() + ttl if ttl else None` (`ttl` of `None` or `0` is
falsy, so no expiry is recorded). -/
def ttlExpiry (now : Nat) : Option Nat → Option Nat
  | none => none
  | some t => if t = 0 then none else some (now + t)

/-- Python truthiness of `self.max_size` (memory.py line 74). -/
def msTruthy : Option Nat → Bool
  | none => false
  | some n => n != 0

/-- Outcome of running one coroutine to completion: it returns, it raises
an exception (identified by the name of the exception type), or it blocks
forever awaiting a lock it already holds. -/
inductive PyRes (β σ : Type) where
  | ok (ret : β) (st : σ)
  | raised (err : String) (st : σ)
  | deadlock (st : σ)
deriving Repr, DecidableEq

/-- Embedding of `MemoryCache.delete` (memory.py lines 80-88): acquire `self.lock`,
remove the key if present, release. -/
def memDelete (key : String) (st : MemState α) : PyRes Unit (MemState α) :=
  if st.locked then .deadlock st
  else .ok () { st with cache := dictErase key st.cache }

/-- Embedding of `MemoryCache.get` (memory.py lines 40-62).  On an expired entry the
code runs `await self.delete(key)` while still holding `self.lock`;
`delete` re-acquires the same non-reentrant lock, so that path blocks. -/
def memGet (now : Nat) (key : String) (st : MemState α) :
    PyRes (Option α) (MemState α) :=
  if st.locked then .deadlock st
  else
    let st₁ : MemState α := { st with locked := true }
    match dictLookup key st₁.cache with
    | none => .ok none { st₁ with locked := false }
    | some e =>
      if expiredAt now e.expiry then
        match memDelete key st₁ with
        | .deadlock st' => .deadlock st'
        | .raised e st' => .raised e st'
        | .ok _ st' => .ok none { st' with locked := false }
      else
        .ok e.value
          { st₁ with
            cache := dictInsert key { e with lastAccess := now } st₁.cache,
            locked := false }

/-- Python `min(self.cache.items(), key=lambda x: x[1][2])`: the first item
(in iteration order) attaining the minimal `last_access`. -/
def minByLastAccess : List (String × MemEntry α) → Option (String × MemEntry α)
  | [] => none
  | x :: rest =>
    match minByLastAccess rest with
    | none => some x
    | some m => if m.2.lastAccess < x.2.lastAccess then some m else some x

/-- Embedding of `MemoryCache._evict_lru` (memory.py lines 95-104). -/
def evictLru (c : List (String × MemEntry α)) : List (String × MemEntry α) :=
  match minByLastAccess c with
  | none => c
  | some m => if (dictLookup m.1 c).isSome then dictErase m.1 c else c

/-- Embedding of `MemoryCache.set` (memory.py lines 64-78). -/
def memSet (now : Nat) (key : String) (value : Option α) (ttl : Option Nat)
    (st : MemState α) : PyRes Unit (MemState α) :=
  if st.locked then .deadlock st
  else
    let c :=
      if msTruthy st.maxSize && decide (st.maxSize.getD 0 ≤ st.cache.length)
          && (dictLookup key st.cache).isNone
      then evictLru st.cache else st.cache
    .ok () { st with cache := dictInsert key ⟨value, ttlExpiry now ttl, now⟩ c }

/-- Embedding of `MemoryCache.clear` (memory.py lines 90-93). -/
def memClear (st : MemState α) : PyRes Unit (MemState α) :=
  if st.locked then .deadlock st
  else .ok () { st with cache := [] }

/-! ### Durable file store (`DiskCache`, disk.py)

The file system restricted to the cache directory is a map from paths to
file contents.  Serialization (`pickle`, optionally `zlib`) is lossless on
the envelope, so the contents of a file are either a well-formed envelope or
bytes that fail to deserialize.  `hashlib.md5(key).hexdigest()` is an
external library function, taken as a parameter `digest`. -/

/-- Contents of one cache file: a pickled envelope
holding value, expiry and created fields (disk.py lines 143-147) or corrupt bytes. -/
inductive FileContent (α : Type) where
  | good (value : Option α) (expiry : Option Nat) (created : Nat)
  | corrupt
deriving Repr, DecidableEq

/-- State of a `DiskCache` instance: the cache directory (path ↦ file
contents) and the set of paths whose per-path `asyncio.Lock` is held. -/
structure DiskState (α : Type) where
  files : List (String × FileContent α)
  heldLocks : List String
deriving Repr, DecidableEq

/-- Embedding of `DiskCache._key_to_path` (disk.py lines 48-67):
`<md5(key)>.cache` inside the shard directory. -/
def keyPath (digest : String → String) (key : String) : String :=
  digest key ++ ".cache"

/-- Embedding of `path.with_suffix(".tmp")` on the target path (disk.py line 155). -/
def tmpPath (digest : String → String) (key : String) : String :=
  digest key ++ ".tmp"

/-- Embedding of `DiskCache.delete` (disk.py lines 175-189): acquire the per-path lock,
unlink the file if present, release. -/
def diskDelete (digest : String → String) (key : String) (st : DiskState α) :
    PyRes Unit (DiskState α) :=
  let path := keyPath digest key
  if st.heldLocks.contains path then .deadlock st
  else .ok () { st with files := dictErase path st.files }

/-- Embedding of `DiskCache.get` (disk.py lines 89-130).  A file that fails to
deserialize is treated as a miss.  On an expired entry the code runs
`await self.delete(key)` while still holding the per-path lock; `delete`
re-acquires that same non-reentrant lock, so that path blocks. -/
def diskGet (digest : String → String) (now : Nat) (key : String)
    (st : DiskState α) : PyRes (Option α) (DiskState α) :=
  let path := keyPath digest key
  if st.heldLocks.contains path then .deadlock st
  else
    let st₁ : DiskState α := { st with heldLocks := path :: st.heldLocks }
    let release : DiskState α → DiskState α :=
      fun s => { s with heldLocks := s.heldLocks.erase path }
    match dictLookup path st₁.files with
    | none => .ok none (release st₁)
    | some .corrupt => .ok none (release st₁)
    | some (.good v expiry _) =>
      if expiredAt now expiry then
        match diskDelete digest key st₁ with
        | .deadlock st' => .deadlock st'
        | .raised e st' => .raised e st'
        | .ok _ st' => .ok none (release st')
      else .ok v (release st₁)

/-- Where an I/O failure strikes inside the `try` block of `DiskCache.set`. -/
inductive SetFail where
  /-- No failure: the happy path. -/
  | noFail
  /-- Failure of `path.parent.mkdir(...)` (disk.py line 152): raises `OSError` before
  `temp_path` is assigned. -/
  | mkdirFail
  /-- Failure of `open(temp_path, "wb")`: no temp file is created. -/
  | openFail
  /-- Writing/pickling into the open temp file fails midway: a partial
  temp file exists. -/
  | writeFail
  /-- Failure of `os.replace(temp_path, path)` (disk.py line 165): the complete
  temp file exists, the target is untouched. -/
  | renameFail
deriving Repr, DecidableEq

/-- Embedding of `DiskCache.set` (disk.py lines 132-173), with the failure point given
by `fp`.  The `except` handler (lines 166-173) unlinks the temp file if it
exists and swallows the exception; when the failure struck at the in-`try`
`mkdir`, the handler expression `temp_path.exists()` reads a never-assigned local
and itself raises `UnboundLocalError`, which propagates to the caller. -/
def diskSet (digest : String → String) (now : Nat) (key : String)
    (value : Option α) (ttl : Option Nat) (fp : SetFail) (st : DiskState α) :
    PyRes Unit (DiskState α) :=
  let path := keyPath digest key
  let temp := tmpPath digest key
  if st.heldLocks.contains path then .deadlock st
  else
    let env : FileContent α := .good value (ttlExpiry now ttl) now
    match fp with
    | .mkdirFail => .raised "UnboundLocalError" st
    | .openFail => .ok () st
    | .writeFail =>
      .ok () { st with files := dictErase temp (dictInsert temp .corrupt st.files) }
    | .renameFail =>
      .ok () { st with files := dictErase temp (dictInsert temp env st.files) }
    | .noFail =>
      .ok () { st with
        files := dictInsert path env (dictErase temp (dictInsert temp env st.files)) }

/-! ### Cache orchestrator (`CacheManager`, core.py)

The four orchestrator operations wrap one backend call each.  They are
embedded over the outcome of that backend call (a `PyRes`), so the same
definitions cover every backend.  Structured notifications to the external
event bus are accumulated in a list. -/

/-- The notification kinds of `EventType` that the core emits. -/
inductive EvKind where
  | hit | miss | setDone | deleteDone | clearDone | cacheError
  | callStart | callEnd | funcError
deriving Repr, DecidableEq

/-- A structured notification: the payload fields the core fills in
(`key`, `function`, `error_type`, `operation`); an absent field is
`none`. -/
structure Event where
  kind : EvKind
  key : Option String
  fn : Option String
  errorType : Option String
  operation : Option String
deriving Repr, DecidableEq

/-- Embedding of `CacheManager.get` (core.py lines 63-114): a non-`None` backend result
emits a hit, a `None` result emits a miss; a backend exception emits a
`CACHE_ERROR` event (whose payload has `error_type` but no `operation`
field) and the call returns `None`. -/
def cmGet (key fname : String) (b : PyRes (Option α) σ) :
    PyRes (Option α) σ × List Event :=
  match b with
  | .ok v st =>
    (.ok v st,
      [⟨if v.isSome then .hit else .miss, some key, some fname, none, none⟩])
  | .raised e st => (.ok none st, [⟨.cacheError, some key, some fname, some e, none⟩])
  | .deadlock st => (.deadlock st, [])

/-- Python `ttl or settings.ttl` (core.py line 134): `None` and `0` are
falsy, so the default TTL is used for both. -/
def effectiveTtl (ttl settingsTtl : Option Nat) : Option Nat :=
  match ttl with
  | none => settingsTtl
  | some t => if t = 0 then settingsTtl else some t

/-- Embedding of `CacheManager.set` (core.py lines 116-160): success emits a
`CACHE_SET` event; a backend exception emits a `CACHE_ERROR` event with
`operation = "set"` and is swallowed. -/
def cmSet (key fname : String) (b : PyRes Unit σ) :
    PyRes Unit σ × List Event :=
  match b with
  | .ok _ st => (.ok () st, [⟨.setDone, some key, some fname, none, none⟩])
  | .raised e st =>
    (.ok () st, [⟨.cacheError, some key, some fname, some e, some "set"⟩])
  | .deadlock st => (.deadlock st, [])

/-- Embedding of `CacheManager.delete` (core.py lines 162-193): success emits a
`CACHE_DELETE` event; a backend exception emits a `CACHE_ERROR` event with
`operation = "delete"` and is swallowed. -/
def cmDelete (key : String) (b : PyRes Unit σ) : PyRes Unit σ × List Event :=
  match b with
  | .ok _ st => (.ok () st, [⟨.deleteDone, some key, none, none, none⟩])
  | .raised e st =>
    (.ok () st, [⟨.cacheError, some key, none, some e, some "delete"⟩])
  | .deadlock st => (.deadlock st, [])

/-- Embedding of `CacheManager.clear` (core.py lines 195-220): success emits a
`CACHE_CLEAR` event; a backend exception emits a `CACHE_ERROR` event with
`operation = "clear"` and is swallowed. -/
def cmClear (b : PyRes Unit σ) : PyRes Unit σ × List Event :=
  match b with
  | .ok _ st => (.ok () st, [⟨.clearDone, none, none, none, none⟩])
  | .raised e st => (.ok () st, [⟨.cacheError, none, none, some e, some "clear"⟩])
  | .deadlock st => (.deadlock st, [])

/-! ### Key builder (`build_cache_key`, core.py lines 320-390)

`hash(arg)` may raise `TypeError` for unhashable values, so the Python
`hash` is embedded as `hashv : α → Option Int` (`none` = unhashable) and
`str(arg)` as `strv : α → String`.  `hashlib.md5(...).hexdigest()` is the
parameter `digest`. -/

/-- Identity and signature of a Python function as `build_cache_key` uses
them: `__module__`, `__qualname__`, and the
parameter names in order. -/
structure PyFunc where
  module : String
  qualname : String
  params : List String
deriving Repr, DecidableEq

/-- The dotted full name, module dot qualname (core.py line 513). -/
def funcFullName (f : PyFunc) : String := f.module ++ "." ++ f.qualname

/-- The token for one positional argument (core.py lines 364-369):
`str(hash(arg))` if hashable, else `str(arg)`. -/
def argToken (hashv : α → Option Int) (strv : α → String) (a : α) : String :=
  match hashv a with
  | some h => toString h
  | none => strv a

/-- The token for one keyword argument (core.py lines 377-380):
the name, a colon and the hash of the value if hashable, else the name,
a colon and its string form. -/
def kwToken (hashv : α → Option Int) (strv : α → String)
    (k : String) (v : α) : String :=
  match hashv v with
  | some h => k ++ ":" ++ toString h
  | none => k ++ ":" ++ strv v

/-- The loop over `enumerate(args)` (core.py lines 358-369): skip the
argument when `exclude_set and i < len(arg_names) and
arg_names[i] in exclude_set`. -/
def posTokens (hashv : α → Option Int) (strv : α → String)
    (excludeSet argNames : List String) : Nat → List α → List String
  | _, [] => []
  | i, a :: rest =>
    if !excludeSet.isEmpty && decide (i < argNames.length)
        && excludeSet.contains (argNames.getD i "") then
      posTokens hashv strv excludeSet argNames (i + 1) rest
    else
      argToken hashv strv a :: posTokens hashv strv excludeSet argNames (i + 1) rest

/-- Insertion into a key-sorted list (dict keys are unique, so
`sorted(kwargs.items())` orders by key alone). -/
def insertSorted (x : String × α) : List (String × α) → List (String × α)
  | [] => [x]
  | y :: rest => if x.1 ≤ y.1 then x :: y :: rest else y :: insertSorted x rest

/-- Embedding of `sorted(kwargs.items())` (core.py line 372). -/
def sortKwargs (l : List (String × α)) : List (String × α) :=
  l.foldr insertSorted []

/-- The loop over sorted keyword arguments (core.py lines 372-380): skip
names in the exclusion set. -/
def kwTokens (hashv : α → Option Int) (strv : α → String)
    (excludeSet : List String) (kwargs : List (String × α)) : List String :=
  (sortKwargs kwargs).filterMap fun kv =>
    if excludeSet.contains kv.1 then none
    else some (kwToken hashv strv kv.1 kv.2)

/-- Python `key_prefix or settings.key_prefix` (core.py line 389): `None`
and the empty string are falsy. -/
def pyOrStr (p : Option String) (d : String) : String :=
  match p with
  | none => d
  | some s => if s = "" then d else s

/-- Embedding of `build_cache_key` (core.py lines 320-390). -/
def buildCacheKey (digest : String → String) (hashv : α → Option Int)
    (strv : α → String)
    (keyBuilder : Option (PyFunc → List α → List (String × α) → String))
    (f : PyFunc) (args : List α) (kwargs : List (String × α))
    (keyPref : Option String) (excludeArgs : Option (List String))
    (settingsPref : String) : String :=
  match keyBuilder with
  | some kb => kb f args kwargs
  | none =>
    let excludeSet := excludeArgs.getD []
    let argNames := if excludeSet.isEmpty then [] else f.params
    let argParts :=
      posTokens hashv strv excludeSet argNames 0 args
        ++ kwTokens hashv strv excludeSet kwargs
    let keyStr := funcFullName f ++ ":" ++ String.intercalate ":" argParts
    pyOrStr keyPref settingsPref ++ ":" ++ digest keyStr

/-! ### Call bridge (`_get_cached_value`, core.py lines 488-573)

The wrapped unit of work is embedded as its outcome (`FuncOut`): what the
single call to `func(*args, **kwargs)` would return or raise.  The result
records how many times the wrapped function body was executed. -/

/-- Outcome of executing the wrapped function once. -/
inductive FuncOut (α : Type) where
  | ret (v : Option α)
  | raise (err : String)
deriving Repr, DecidableEq

/-- Result of `_get_cached_value` against a `MemoryCache` backend: the
returned `(was_cached, value)` pair, the final backend state, the emitted
notifications, and how many times the wrapped function body ran. -/
inductive GcvRes (α : Type) where
  | ok (wasCached : Bool) (value : Option α) (st : MemState α)
      (evs : List Event) (funcCalls : Nat)
  | raised (err : String) (st : MemState α) (evs : List Event) (funcCalls : Nat)
  | deadlock (st : MemState α) (evs : List Event) (funcCalls : Nat)
deriving Repr, DecidableEq

/-- The body of `_get_cached_value` after the key is built (core.py lines
513-573), with a `MemoryCache` backend. -/
def gcvWithKey (now : Nat) (key fname : String) (ttl settingsTtl : Option Nat)
    (fOut : FuncOut α) (st : MemState α) : GcvRes α :=
  match cmGet key fname (memGet now key st) with
  | (.deadlock st', evs) => .deadlock st' evs 0
  | (.raised e st', evs) => .raised e st' evs 0
  | (.ok cached st', evs) =>
    match cached with
    | some v => .ok true (some v) st' evs 0
    | none =>
      let evs₁ := evs ++ [⟨.callStart, some key, some fname, none, none⟩]
      match fOut with
      | .raise e =>
        .raised e st' (evs₁ ++ [⟨.funcError, some key, some fname, some e, none⟩]) 1
      | .ret r =>
        let evs₂ := evs₁ ++ [⟨.callEnd, some key, some fname, none, none⟩]
        match cmSet key fname (memSet now key r (effectiveTtl ttl settingsTtl) st') with
        | (.ok _ st'', evs₃) => .ok false r st'' (evs₂ ++ evs₃) 1
        | (.raised e st'', evs₃) => .raised e st'' (evs₂ ++ evs₃) 1
        | (.deadlock st'', evs₃) => .deadlock st'' (evs₂ ++ evs₃) 1

/-- Embedding of `_get_cached_value` (core.py lines 488-573): build the key, consult
the orchestrator, and on a miss run the wrapped work and store its
result. -/
def getCachedValue (digest : String → String) (hashv : α → Option Int)
    (strv : α → String)
    (keyBuilder : Option (PyFunc → List α → List (String × α) → String))
    (f : PyFunc) (args : List α) (kwargs : List (String × α))
    (keyPref : Option String) (excludeArgs : Option (List String))
    (settingsPref : String) (now : Nat) (ttl settingsTtl : Option Nat)
    (fOut : FuncOut α) (st : MemState α) : GcvRes α :=
  gcvWithKey now
    (buildCacheKey digest hashv strv keyBuilder f args kwargs keyPref
      excludeArgs settingsPref)
    (funcFullName f) ttl settingsTtl fOut st

/-- Sequencing of two backend calls: the second runs only if the first
returned (`await a; await b`). -/
def pyBind : PyRes β σ → (σ → PyRes γ σ) → PyRes γ σ
  | .ok _ st, f => f st
  | .raised e st, _ => .raised e st
  | .deadlock st, _ => .deadlock st

/-- The value a completed call returned (`none` if it raised or blocked). -/
def retOf : PyRes β σ → Option β
  | .ok b _ => some b
  | .raised _ _ => none
  | .deadlock _ => none

/-- The state component of the outcome of an operation (for a deadlocked call,
the state at the moment the task blocked). -/
def stOf : PyRes β σ → σ
  | .ok _ st => st
  | .raised _ st => st
  | .deadlock st => st

/-- How many times the wrapped function body ran during
`_get_cached_value`. -/
def gcvCalls : GcvRes α → Nat
  | .ok _ _ _ _ c => c
  | .raised _ _ _ c => c
  | .deadlock _ _ c => c

/-- The `(was_cached, value)` pair `_get_cached_value` returned (`none` if
it raised or blocked). -/
def gcvRet : GcvRes α → Option (Bool × Option α)
  | .ok w v _ _ _ => some (w, v)
  | .raised _ _ _ _ => none
  | .deadlock _ _ _ => none

/-- A concrete two-entry `MemoryCache` state at capacity 2: `"a"` last
accessed at 5, `"b"` at 3. -/
def c6st : MemState Nat :=
  ⟨[("a", ⟨some 1, none, 5⟩), ("b", ⟨some 2, none, 3⟩)], some 2, false⟩

/-- Embedding of `CacheManager.set` composed with a `DiskCache` backend (the
view the orchestrator has of a disk `set` whose I/O fails at `fp`). -/
def cmSetDisk (digest : String → String) (now : Nat) (key fname : String)
    (value : Option α) (ttl settingsTtl : Option Nat) (fp : SetFail)
    (st : DiskState α) : PyRes Unit (DiskState α) × List Event :=
  cmSet key fname (diskSet digest now key value (effectiveTtl ttl settingsTtl) fp st)

/-! ### Dictionary lemmas -/

theorem dictLookup_insert (k : String) (v : β) (l : List (String × β)) :
    dictLookup k (dictInsert k v l) = some v := by
  induction l with
  | nil => simp [dictInsert, dictLookup]
  | cons x rest ih =>
    by_cases h : x.1 = k
    · simp [dictInsert, dictLookup, h]
    · simp [dictInsert, dictLookup, h, ih]

theorem length_dictInsert (k : String) (v : β) (l : List (String × β)) :
    (dictInsert k v l).length =
      if (dictLookup k l).isSome then l.length else l.length + 1 := by
  induction l with
  | nil => simp [dictInsert, dictLookup]
  | cons x rest ih =>
    by_cases h : x.1 = k
    · simp [dictInsert, dictLookup, h]
    · by_cases h2 : (dictLookup k rest).isSome <;>
        simp [dictInsert, dictLookup, h, ih, h2]

theorem length_dictErase_le (k : String) (l : List (String × β)) :
    (dictErase k l).length ≤ l.length := by
  induction l with
  | nil => simp [dictErase]
  | cons x rest ih =>
    by_cases h : x.1 = k <;> simp [dictErase, h] <;> omega

theorem length_dictErase_of_mem (k : String) (l : List (String × β))
    (h : (dictLookup k l).isSome) :
    (dictErase k l).length + 1 = l.length := by
  induction l with
  | nil => simp [dictLookup] at h
  | cons x rest ih =>
    by_cases hx : x.1 = k
    · simp [dictErase, hx]
    · simp [dictLookup, hx] at h
      simp [dictErase, hx, ih h]

theorem dictLookup_erase_none (k k' : String) (l : List (String × β))
    (h : dictLookup k l = none) : dictLookup k (dictErase k' l) = none := by
  induction l with
  | nil => simpa [dictErase] using h
  | cons x rest ih =>
    by_cases hx : x.1 = k
    · simp [dictLookup, hx] at h
    · by_cases hx' : x.1 = k'
      · simp [dictLookup, hx] at h
        simp [dictErase, hx', h]
      · simp [dictLookup, hx] at h
        simp [dictErase, dictLookup, hx, hx', ih h]

theorem dictErase_insert_of_none (k : String) (v : β) (l : List (String × β))
    (h : dictLookup k l = none) : dictErase k (dictInsert k v l) = l := by
  induction l with
  | nil => simp [dictInsert, dictErase]
  | cons x rest ih =>
    by_cases hx : x.1 = k
    · simp [dictLookup, hx] at h
    · simp [dictLookup, hx] at h
      simp [dictInsert, dictErase, hx, ih h]

theorem lookup_isSome_of_mem (k : String) (v : β) (l : List (String × β))
    (h : (k, v) ∈ l) : (dictLookup k l).isSome := by
  induction l with
  | nil => simp at h
  | cons x rest ih =>
    by_cases hx : x.1 = k
    · simp [dictLookup, hx]
    · rcases List.mem_cons.mp h with h1 | h1
      · rw [← h1] at hx; simp at hx
      · simp [dictLookup, hx, ih h1]

theorem minByLastAccess_spec (l : List (String × MemEntry α)) (h : l ≠ []) :
    ∃ m, minByLastAccess l = some m ∧ m ∈ l ∧
      ∀ p ∈ l, m.2.lastAccess ≤ p.2.lastAccess := by
  induction l with
  | nil => simp at h
  | cons x rest ih =>
    rcases eq_or_ne rest [] with hr | hr
    · subst hr
      exact ⟨x, by simp [minByLastAccess], by simp, by simp⟩
    · obtain ⟨m, hm, hmem, hmin⟩ := ih hr
      by_cases hlt : m.2.lastAccess < x.2.lastAccess
      · refine ⟨m, ?_, List.mem_cons_of_mem _ hmem, ?_⟩
        · simp [minByLastAccess, hm, hlt]
        · intro p hp
          rcases List.mem_cons.mp hp with h1 | h1
          · subst h1; exact Nat.le_of_lt hlt
          · exact hmin p h1
      · refine ⟨x, ?_, List.mem_cons_self x rest, ?_⟩
        · simp [minByLastAccess, hm, hlt]
        · intro p hp
          rcases List.mem_cons.mp hp with h1 | h1
          · subst h1; exact Nat.le_refl _
          · exact Nat.le_trans (Nat.le_of_not_lt hlt) (hmin p h1)

/-! ### Claim theorems -/

/-- C1 (code_bug): the spec requires a `get` on an entry whose
`expires_at` is in the past to return absent and physically remove the
entry.  Both backends instead run `await self.delete(key)` while still
holding the very `asyncio.Lock` (`MemoryCache.get`) or per-path lock
(`DiskCache.get`) that `delete` re-acquires, and `asyncio` locks are not
reentrant — so at the failing input (an entry that expired at time 5, read
at time 10) the call blocks forever and the expired entry is still
physically present in the state at which the task blocked; `None` is never
returned.  This contradicts both backends' own docstrings ("or None if not
found or expired"). -/
theorem c1_expired_get_blocks_entry_survives :
    (memGet 10 "k" (⟨[("k", ⟨some 7, some 5, 0⟩)], none, false⟩ : MemState Nat) =
        .deadlock ⟨[("k", ⟨some 7, some 5, 0⟩)], none, true⟩) ∧
    (diskGet (fun s => s) 10 "k"
        (⟨[("k.cache", .good (some 7) (some 5) 0)], []⟩ : DiskState Nat) =
        .deadlock ⟨[("k.cache", .good (some 7) (some 5) 0)], ["k.cache"]⟩) := by
  constructor <;> rfl

/-- C2: round-trip — for every key and every value (`Option α` covers any
payload, including `None`), `set(k, v, ttl=None)` followed by `get(k)`
with no intervening operation returns exactly `v`, for both `MemoryCache`
and `DiskCache`. -/
theorem c2_set_get_roundtrip (α : Type) (v : Option α) (key : String)
    (now now' : Nat) (st : MemState α) (hlk : st.locked = false)
    (digest : String → String) (dst : DiskState α) (hdlk : dst.heldLocks = []) :
    retOf (pyBind (memSet now key v none st) (memGet now' key)) = some v ∧
    retOf (pyBind (diskSet digest now key v none .noFail dst)
        (diskGet digest now' key)) = some v := by
  obtain ⟨c, ms, lk⟩ := st
  obtain ⟨fl, hl⟩ := dst
  simp only [MemState.locked] at hlk
  simp only [DiskState.heldLocks] at hdlk
  subst hlk
  subst hdlk
  constructor
  · simp [memSet, memGet, pyBind, retOf, dictLookup_insert, expiredAt, ttlExpiry]
  · simp [diskSet, diskGet, pyBind, retOf, dictLookup_insert, expiredAt, ttlExpiry]

/-- C2 witness: a concrete round-trip through both stores. -/
theorem c2_set_get_roundtrip_witness :
    retOf (pyBind (memSet 3 "k" (some 42) none (⟨[], some 5, false⟩ : MemState Nat))
        (memGet 9 "k")) = some (some 42) ∧
    retOf (pyBind (diskSet (fun s => s) 3 "k" (some 42) none .noFail
        (⟨[], []⟩ : DiskState Nat)) (diskGet (fun s => s) 9 "k")) = some (some 42) :=
  c2_set_get_roundtrip Nat (some 42) "k" 3 9 ⟨[], some 5, false⟩ rfl
    (fun s => s) ⟨[], []⟩ rfl

/-- C3: cache-hit short-circuit — whenever the orchestrator `get` on
the built key finds a live stored value, `_get_cached_value` returns that
stored value (as `(True, value)`, emitting a hit notification) and the
wrapped function body is never executed (`funcCalls = 0`), whatever that
body would have done. -/
theorem c3_hit_short_circuits_wrapped_call (α : Type) (digest : String → String)
    (hashv : α → Option Int) (strv : α → String)
    (kb : Option (PyFunc → List α → List (String × α) → String)) (f : PyFunc)
    (args : List α) (kwargs : List (String × α)) (kp : Option String)
    (ex : Option (List String)) (sp : String) (now : Nat)
    (ttl sttl : Option Nat) (fOut : FuncOut α) (st st₂ : MemState α)
    (key : String) (v : α)
    (hkey : key = buildCacheKey digest hashv strv kb f args kwargs kp ex sp)
    (hget : memGet now key st = .ok (some v) st₂) :
    getCachedValue digest hashv strv kb f args kwargs kp ex sp now ttl sttl
        fOut st =
      .ok true (some v) st₂
        [⟨.hit, some key, some (funcFullName f), none, none⟩] 0 := by
  subst hkey
  simp [getCachedValue, gcvWithKey, cmGet, hget]

/-- C3 witness: with a custom key builder yielding key `"K"` and a stored
live value `3`, the second call returns `3` and never runs the body. -/
theorem c3_hit_short_circuits_wrapped_call_witness :
    getCachedValue (fun s => s) (fun (_ : Nat) => none) (fun _ => "x")
        (some fun _ _ _ => "K") ⟨"m", "f", []⟩ [] [] none none "retainit"
        10 none none (.ret (some 99))
        ⟨[("K", ⟨some 3, none, 0⟩)], none, false⟩ =
      .ok true (some 3) ⟨[("K", ⟨some 3, none, 10⟩)], none, false⟩
        [⟨.hit, some "K", some (funcFullName ⟨"m", "f", []⟩), none, none⟩] 0 :=
  c3_hit_short_circuits_wrapped_call Nat (fun s => s) (fun _ => none)
    (fun _ => "x") (some fun _ _ _ => "K") ⟨"m", "f", []⟩ [] [] none none
    "retainit" 10 none none (.ret (some 99)) _ _ "K" 3 rfl (by decide)

/-- C4: computation failure propagation and atomicity — when the wrapped
function raises, `_get_cached_value` re-raises that exact exception, the
backend state is exactly what it was before the call (nothing was stored
for the key), and a `FUNCTION_ERROR` notification naming the function and
the error type is emitted; no `CACHE_SET` notification occurs. -/
theorem c4_wrapped_error_propagates_store_unchanged (α : Type)
    (digest : String → String) (hashv : α → Option Int) (strv : α → String)
    (kb : Option (PyFunc → List α → List (String × α) → String)) (f : PyFunc)
    (args : List α) (kwargs : List (String × α)) (kp : Option String)
    (ex : Option (List String)) (sp : String) (now : Nat)
    (ttl sttl : Option Nat) (e : String) (st : MemState α) (key : String)
    (hkey : key = buildCacheKey digest hashv strv kb f args kwargs kp ex sp)
    (hlk : st.locked = false) (habs : dictLookup key st.cache = none) :
    getCachedValue digest hashv strv kb f args kwargs kp ex sp now ttl sttl
        (.raise e) st =
      .raised e st
        [⟨.miss, some key, some (funcFullName f), none, none⟩,
         ⟨.callStart, some key, some (funcFullName f), none, none⟩,
         ⟨.funcError, some key, some (funcFullName f), some e, none⟩] 1 := by
  subst hkey
  obtain ⟨c, ms, lk⟩ := st
  simp only [MemState.locked] at hlk
  subst hlk
  simp only [MemState.cache] at habs
  simp [getCachedValue, gcvWithKey, cmGet, memGet, habs]

/-- C4 witness: a wrapped body raising `ValueError` against an empty
store propagates the error, leaves the store empty, and emits
miss/start/error notifications only. -/
theorem c4_wrapped_error_propagates_store_unchanged_witness :
    getCachedValue (fun s => s) (fun (_ : Nat) => none) (fun _ => "x")
        (some fun _ _ _ => "K") ⟨"m", "f", []⟩ [] [] none none "retainit"
        10 none none (.raise "ValueError") ⟨[], some 5, false⟩ =
      .raised "ValueError" ⟨[], some 5, false⟩
        [⟨.miss, some "K", some (funcFullName ⟨"m", "f", []⟩), none, none⟩,
         ⟨.callStart, some "K", some (funcFullName ⟨"m", "f", []⟩), none, none⟩,
         ⟨.funcError, some "K", some (funcFullName ⟨"m", "f", []⟩),
           some "ValueError", none⟩] 1 :=
  c4_wrapped_error_propagates_store_unchanged Nat (fun s => s) (fun _ => none)
    (fun _ => "x") (some fun _ _ _ => "K") ⟨"m", "f", []⟩ [] [] none none
    "retainit" 10 none none "ValueError" ⟨[], some 5, false⟩ "K" rfl rfl rfl

/-- C5 counterexample: the claim says every backend exception is turned
into an error notification carrying the error kind and the operation
name.  At this concrete input — a backend `get` raising `OSError` — the
single emitted notification has `error_type = "OSError"` but its
`operation` field is absent (the error payload of `CacheManager.get`, core.py
lines 103-112, has no `"operation"` key), so the notification does not
carry the operation name. -/
theorem c5_get_error_event_lacks_operation :
    (cmGet (α := Nat) "k" "f"
        (.raised "OSError" (⟨[], none, false⟩ : MemState Nat))).2 =
      [⟨.cacheError, some "k", some "f", some "OSError", none⟩] := rfl

/-- C5 (amended): every backend exception during get/set/delete/clear is
caught at the orchestrator layer and converted into an error notification
carrying the error kind; for `set`/`delete`/`clear` the notification also
carries the operation name, while the `get` notification carries none.  A failing `get`
returns absent (a miss) and failing `set`/`delete`/`clear` return
normally, so the result of the wrapped computation still reaches its caller. -/
theorem c5_backend_errors_degrade_gracefully (α σ : Type) (st : σ)
    (e key fname : String) :
    cmGet (α := α) key fname (.raised e st) =
      (.ok none st, [⟨.cacheError, some key, some fname, some e, none⟩]) ∧
    cmSet key fname (.raised e st) =
      (.ok () st, [⟨.cacheError, some key, some fname, some e, some "set"⟩]) ∧
    cmDelete key (.raised e st) =
      (.ok () st, [⟨.cacheError, some key, none, some e, some "delete"⟩]) ∧
    cmClear (.raised e st) =
      (.ok () st, [⟨.cacheError, none, none, some e, some "clear"⟩]) :=
  ⟨rfl, rfl, rfl, rfl⟩

/-- C6: LRU eviction — with `max_size = n > 0` and the cache holding
exactly `n` entries, a `set` on a key not already present evicts exactly
one entry (the count drops to `n - 1` and the insert brings it back to
`n`), and the evicted entry is one with the minimal `last_access_time`
among all stored entries; a `set` on an already-present key evicts
nothing. -/
theorem c6_set_evicts_lru (α : Type) (st : MemState α) (n now : Nat)
    (key : String) (v : Option α) (ttl : Option Nat)
    (hlk : st.locked = false) (hms : st.maxSize = some n) (hn : 0 < n)
    (hlen : st.cache.length = n) :
    (dictLookup key st.cache = none →
      ∃ m, minByLastAccess st.cache = some m ∧ m ∈ st.cache ∧
        (∀ p ∈ st.cache, m.2.lastAccess ≤ p.2.lastAccess) ∧
        memSet now key v ttl st =
          .ok () ⟨dictInsert key ⟨v, ttlExpiry now ttl, now⟩
            (dictErase m.1 st.cache), st.maxSize, st.locked⟩ ∧
        (dictErase m.1 st.cache).length + 1 = st.cache.length ∧
        (dictInsert key ⟨v, ttlExpiry now ttl, now⟩
            (dictErase m.1 st.cache)).length = n) ∧
    ((dictLookup key st.cache).isSome →
      memSet now key v ttl st =
        .ok () ⟨dictInsert key ⟨v, ttlExpiry now ttl, now⟩ st.cache,
          st.maxSize, st.locked⟩ ∧
      (dictInsert key ⟨v, ttlExpiry now ttl, now⟩ st.cache).length = n) := by
  obtain ⟨c, ms, lk⟩ := st
  simp only [MemState.locked] at hlk
  simp only [MemState.maxSize] at hms
  simp only [MemState.cache] at hlen
  subst hlk
  subst hms
  dsimp only
  constructor
  · intro habs
    have hne : c ≠ [] := by
      intro h
      rw [h] at hlen
      simp at hlen
      omega
    obtain ⟨m, hm, hmem, hmin⟩ := minByLastAccess_spec c hne
    have hsome : (dictLookup m.1 c).isSome :=
      lookup_isSome_of_mem m.1 m.2 c (by simpa using hmem)
    have herase := length_dictErase_of_mem m.1 c hsome
    have hnz : (n != 0) = true := by
      simp only [bne_iff_ne, ne_eq]
      omega
    refine ⟨m, hm, hmem, hmin, ?_, by omega, ?_⟩
    · simp [memSet, msTruthy, hnz, hlen, habs, evictLru, hm, hsome]
    · rw [length_dictInsert]
      simp [dictLookup_erase_none key m.1 c habs]
      omega
  · intro hsome
    have hnone : (dictLookup key c).isNone = false := by
      simp [Option.isNone_eq_false_iff, Option.isSome_iff_ne_none] at hsome ⊢
      exact hsome
    constructor
    · simp [memSet, hnone]
    · rw [length_dictInsert]
      simp [hsome, hlen]

/-- C6 witness: a two-entry cache at capacity 2; setting new key `"c"`
evicts `"b"` (last access 3, older than the last access 5 of `"a"`) and setting the
present key `"a"` evicts nothing. -/
theorem c6_set_evicts_lru_witness :
    (dictLookup "c" c6st.cache = none →
      ∃ m, minByLastAccess c6st.cache = some m ∧ m ∈ c6st.cache ∧
        (∀ p ∈ c6st.cache, m.2.lastAccess ≤ p.2.lastAccess) ∧
        memSet 10 "c" (some 9) none c6st =
          .ok () ⟨dictInsert "c" ⟨some 9, ttlExpiry 10 none, 10⟩
            (dictErase m.1 c6st.cache), c6st.maxSize, c6st.locked⟩ ∧
        (dictErase m.1 c6st.cache).length + 1 = c6st.cache.length ∧
        (dictInsert "c" ⟨some 9, ttlExpiry 10 none, 10⟩
            (dictErase m.1 c6st.cache)).length = 2) ∧
    ((dictLookup "c" c6st.cache).isSome →
      memSet 10 "c" (some 9) none c6st =
        .ok () ⟨dictInsert "c" ⟨some 9, ttlExpiry 10 none, 10⟩ c6st.cache,
          c6st.maxSize, c6st.locked⟩ ∧
      (dictInsert "c" ⟨some 9, ttlExpiry 10 none, 10⟩ c6st.cache).length = 2) :=
  c6_set_evicts_lru Nat c6st 2 10 "c" (some 9) none rfl rfl (by decide) (by decide)

/-- C8: bounded memory invariant — with a positive `max_size = n`, if
`len(cache) ≤ n` holds before an operation then it still holds after
`get`, `set`, `delete`, and `clear`: no operation grows the map past the
capacity bound. -/
theorem c8_ops_preserve_capacity_bound (α : Type) (st : MemState α)
    (n now : Nat) (key : String) (v : Option α) (ttl : Option Nat)
    (hms : st.maxSize = some n) (hn : 0 < n) (hinv : st.cache.length ≤ n) :
    (stOf (memGet now key st)).cache.length ≤ n ∧
    (stOf (memSet now key v ttl st)).cache.length ≤ n ∧
    (stOf (memDelete key st)).cache.length ≤ n ∧
    (stOf (memClear st)).cache.length ≤ n := by
  obtain ⟨c, ms, lk⟩ := st
  simp only [MemState.maxSize] at hms
  simp only [MemState.cache] at hinv
  subst hms
  refine ⟨?_, ?_, ?_, ?_⟩
  · cases lk
    · cases hl : dictLookup key c with
      | none => simpa [memGet, stOf, hl] using hinv
      | some e =>
        by_cases hex : expiredAt now e.expiry
        · simpa [memGet, stOf, hl, hex, memDelete] using hinv
        · simp only [memGet, stOf, hl, hex]
          simp only [Bool.false_eq_true, if_false, hl, hex, stOf]
          rw [length_dictInsert]
          simpa [hl] using hinv
    · simpa [memGet, stOf] using hinv
  · cases lk
    · cases hl : dictLookup key c with
      | some e =>
        simp only [memSet, Bool.false_eq_true, if_false, stOf, hl,
          Option.isNone_some, Bool.and_false]
        rw [length_dictInsert]
        simpa [hl] using hinv
      | none =>
        by_cases hcap : n ≤ c.length
        · have hlen : c.length = n := le_antisymm hinv hcap
          have hne : c ≠ [] := by
            intro h
            rw [h] at hlen
            simp at hlen
            omega
          obtain ⟨m, hm, hmem, _⟩ := minByLastAccess_spec c hne
          have hsome : (dictLookup m.1 c).isSome :=
            lookup_isSome_of_mem m.1 m.2 c (by simpa using hmem)
          have herase := length_dictErase_of_mem m.1 c hsome
          have hnz : (n != 0) = true := by
            simp only [bne_iff_ne, ne_eq]
            omega
          simp [memSet, stOf, msTruthy, hnz, hlen, hl, evictLru, hm, hsome]
          rw [length_dictInsert]
          simp [dictLookup_erase_none key m.1 c hl]
          omega
        · simp [memSet, stOf, hl, hcap]
          rw [length_dictInsert]
          simp [hl]
          omega
    · simpa [memSet, stOf] using hinv
  · cases lk
    · simpa [memDelete, stOf] using
        le_trans (length_dictErase_le key c) hinv
    · simpa [memDelete, stOf] using hinv
  · cases lk
    · simp [memClear, stOf]
    · simpa [memClear, stOf] using hinv

/-- C8 witness: a one-entry cache with capacity 1 stays within the bound
under all four operations. -/
theorem c8_ops_preserve_capacity_bound_witness :
    (stOf (memGet 9 "b" (⟨[("a", ⟨some 1, none, 0⟩)], some 1, false⟩ : MemState Nat))).cache.length ≤ 1 ∧
    (stOf (memSet 9 "b" (some 2) none
        (⟨[("a", ⟨some 1, none, 0⟩)], some 1, false⟩ : MemState Nat))).cache.length ≤ 1 ∧
    (stOf (memDelete "b"
        (⟨[("a", ⟨some 1, none, 0⟩)], some 1, false⟩ : MemState Nat))).cache.length ≤ 1 ∧
    (stOf (memClear
        (⟨[("a", ⟨some 1, none, 0⟩)], some 1, false⟩ : MemState Nat))).cache.length ≤ 1 :=
  c8_ops_preserve_capacity_bound Nat ⟨[("a", ⟨some 1, none, 0⟩)], some 1, false⟩
    1 9 "b" (some 2) none rfl (by decide) (by decide)

theorem posTokens_append (hashv : α → Option Int) (strv : α → String)
    (excl an : List String) (i : Nat) (xs ys : List α) :
    posTokens hashv strv excl an i (xs ++ ys) =
      posTokens hashv strv excl an i xs
        ++ posTokens hashv strv excl an (i + xs.length) ys := by
  induction xs generalizing i with
  | nil => simp [posTokens]
  | cons a rest ih =>
    have harith : i + 1 + rest.length = i + (rest.length + 1) := by omega
    simp only [List.cons_append, posTokens, List.length_cons, List.append_eq]
    by_cases h : (!excl.isEmpty && decide (i < an.length)
        && excl.contains (an.getD i "")) = true
    · rw [if_pos h, if_pos h, ih, harith]
    · rw [if_neg h, if_neg h, ih, harith]
      simp

theorem insertSorted_map (fm : String × α → String × α)
    (hk : ∀ kv, (fm kv).1 = kv.1) (x : String × α) (l : List (String × α)) :
    insertSorted (fm x) (l.map fm) = (insertSorted x l).map fm := by
  induction l with
  | nil => simp [insertSorted]
  | cons y rest ih =>
    simp only [List.map_cons, insertSorted, hk]
    by_cases h : x.1 ≤ y.1
    · simp [h]
    · simp [h, ih]

theorem sortKwargs_map (fm : String × α → String × α)
    (hk : ∀ kv, (fm kv).1 = kv.1) (l : List (String × α)) :
    sortKwargs (l.map fm) = (sortKwargs l).map fm := by
  induction l with
  | nil => simp [sortKwargs]
  | cons a rest ih =>
    show insertSorted (fm a) (sortKwargs (rest.map fm)) = _
    rw [ih, insertSorted_map fm hk]
    rfl

theorem kwTokens_map_value (hashv : α → Option Int) (strv : α → String)
    (excl : List String) (name : String) (hname : name ∈ excl) (g : α → α)
    (l : List (String × α)) :
    kwTokens hashv strv excl
        (l.map fun kv => if kv.1 = name then (kv.1, g kv.2) else kv) =
      kwTokens hashv strv excl l := by
  have hk : ∀ kv : String × α,
      ((fun kv : String × α =>
        if kv.1 = name then (kv.1, g kv.2) else kv) kv).1 = kv.1 := by
    intro kv
    by_cases h : kv.1 = name <;> simp [h]
  unfold kwTokens
  rw [sortKwargs_map _ hk, List.filterMap_map]
  congr 1
  funext kv
  by_cases hc : excl.contains kv.1 = true
  · simp only [Function.comp_apply]
    by_cases h : kv.1 = name <;> simp [h, hc, hname]
  · have hne : kv.1 ≠ name := by
      intro h
      rw [h] at hc
      simp at hc
      exact hc hname
    simp only [Function.comp_apply, if_neg hne]

/-- C7: exclusion noninterference — with a parameter name in
`exclude_args`, `build_cache_key` yields the same key for two runs that
differ only in the value of the excluded parameter: positionally (the
parameter sits at position `pre.length`, whose signature name is in the
exclusion set) the values `s₁` and `s₂` give equal keys, and by keyword
(every binding of `name` has its value replaced by `g`) the keys are also
equal. -/
theorem c7_excluded_value_does_not_affect_key (α : Type)
    (digest : String → String) (hashv : α → Option Int) (strv : α → String)
    (f : PyFunc) (kp : Option String) (sp : String) (excl : List String)
    (name : String) (hname : name ∈ excl) (pre post : List α) (s₁ s₂ : α)
    (kwargs : List (String × α)) (hlt : pre.length < f.params.length)
    (hpos : f.params.getD pre.length "" = name) (args : List α) (g : α → α) :
    buildCacheKey digest hashv strv none f (pre ++ s₁ :: post) kwargs kp
        (some excl) sp =
      buildCacheKey digest hashv strv none f (pre ++ s₂ :: post) kwargs kp
        (some excl) sp ∧
    buildCacheKey digest hashv strv none f args kwargs kp (some excl) sp =
      buildCacheKey digest hashv strv none f args
        (kwargs.map fun kv => if kv.1 = name then (kv.1, g kv.2) else kv) kp
        (some excl) sp := by
  have hne : excl ≠ [] := by
    intro h
    rw [h] at hname
    simp at hname
  have hie : excl.isEmpty = false := by
    cases excl with
    | nil => simp at hname
    | cons a t => rfl
  constructor
  · simp only [buildCacheKey, Option.getD_some, hie, Bool.false_eq_true,
      if_false]
    have hcond : (!excl.isEmpty && decide (0 + pre.length < f.params.length)
        && excl.contains (f.params.getD (0 + pre.length) "")) = true := by
      rw [Nat.zero_add, hpos]
      simp [hie, hlt]
      exact hname
    rw [posTokens_append, posTokens_append]
    simp only [posTokens, hcond, if_pos]
  · simp only [buildCacheKey, Option.getD_some, hie, Bool.false_eq_true,
      if_false]
    rw [kwTokens_map_value hashv strv excl name hname g kwargs]

/-- C7 witness: excluding `"api_key"` makes the key identical whether the
secret changes positionally (second positional argument) or as a keyword
argument. -/
theorem c7_excluded_value_does_not_affect_key_witness :
    (buildCacheKey (fun s => s) (fun n : Nat => some n) (fun _ => "u") none
        ⟨"m", "f", ["x", "api_key"]⟩ ([5] ++ 111 :: []) [("extra", 7)] none
        (some ["api_key"]) "retainit" =
      buildCacheKey (fun s => s) (fun n : Nat => some n) (fun _ => "u") none
        ⟨"m", "f", ["x", "api_key"]⟩ ([5] ++ 222 :: []) [("extra", 7)] none
        (some ["api_key"]) "retainit") ∧
    (buildCacheKey (fun s => s) (fun n : Nat => some n) (fun _ => "u") none
        ⟨"m", "f", ["x", "api_key"]⟩ [5] [("extra", 7)] none
        (some ["api_key"]) "retainit" =
      buildCacheKey (fun s => s) (fun n : Nat => some n) (fun _ => "u") none
        ⟨"m", "f", ["x", "api_key"]⟩ [5]
        ([("extra", 7)].map fun kv =>
          if kv.1 = "api_key" then (kv.1, (fun _ => 999) kv.2) else kv) none
        (some ["api_key"]) "retainit") :=
  c7_excluded_value_does_not_affect_key Nat (fun s => s) (fun n => some n)
    (fun _ => "u") ⟨"m", "f", ["x", "api_key"]⟩ none "retainit" ["api_key"]
    "api_key" (by decide) [5] [] 111 222 [("extra", 7)] (by decide) (by decide)
    [5] (fun _ => 999)

/-- C9 counterexample: the claim says every I/O failure during
`DiskCache.set` results in an error notification being emitted for that
set.  At this concrete input — a write failure into the temp file —
`DiskCache.set` swallows the exception after unlinking the temp file
(only `logger.error` runs, disk.py lines 166-173), so the orchestrator
sees a normal return and emits a `CACHE_SET` success notification: the
emitted notification list contains no error notification at all. -/
theorem c9_write_failure_emits_no_error_event :
    cmSetDisk (fun s => s) 10 "k" "f" (some 7) none (some 3600) .writeFail
        (⟨[], []⟩ : DiskState Nat) =
      (.ok () ⟨[], []⟩, [⟨.setDone, some "k", some "f", none, none⟩]) := rfl

/-- C9 (amended): for an I/O failure at the temp-file open, the temp-file
write, or the atomic rename inside `DiskCache.set`, the temp file is
deleted if it exists (the file system is left exactly as before, so no
`.tmp` file survives) and no exception is raised past the cache boundary
— but no error notification is emitted: the failure is only logged, and
the orchestrator emits a normal `CACHE_SET` success notification.  An I/O
failure at the in-`try` `mkdir` instead escapes `DiskCache.set` as an
`UnboundLocalError` (the cleanup handler reads `temp_path` before
assignment), which the orchestrator catches and reports as an error
notification with `operation = "set"`. -/
theorem c9_set_io_failure_swallowed_and_unreported (α : Type)
    (digest : String → String) (now : Nat) (key fname : String)
    (v : Option α) (ttl sttl : Option Nat) (st : DiskState α)
    (hlk : st.heldLocks.contains (keyPath digest key) = false)
    (htmp : dictLookup (tmpPath digest key) st.files = none) :
    diskSet digest now key v (effectiveTtl ttl sttl) .openFail st = .ok () st ∧
    diskSet digest now key v (effectiveTtl ttl sttl) .writeFail st = .ok () st ∧
    diskSet digest now key v (effectiveTtl ttl sttl) .renameFail st = .ok () st ∧
    cmSetDisk digest now key fname v ttl sttl .writeFail st =
      (.ok () st, [⟨.setDone, some key, some fname, none, none⟩]) ∧
    diskSet digest now key v (effectiveTtl ttl sttl) .mkdirFail st =
      .raised "UnboundLocalError" st ∧
    cmSetDisk digest now key fname v ttl sttl .mkdirFail st =
      (.ok () st, [⟨.cacheError, some key, some fname,
        some "UnboundLocalError", some "set"⟩]) := by
  obtain ⟨fl, hl⟩ := st
  simp only [DiskState.heldLocks] at hlk
  simp only [DiskState.files] at htmp
  have herase := dictErase_insert_of_none (tmpPath digest key)
    (FileContent.corrupt (α := α)) fl htmp
  have herase2 := dictErase_insert_of_none (tmpPath digest key)
    (FileContent.good v (ttlExpiry now (effectiveTtl ttl sttl)) now) fl htmp
  have hlk' : keyPath digest key ∉ hl := by simpa using hlk
  refine ⟨?_, ?_, ?_, ?_, ?_, ?_⟩ <;>
    simp [diskSet, cmSetDisk, cmSet, hlk', herase, herase2]

/-- C9 witness: an empty disk store with a write failure (and separately
the `mkdir` failure) behaves as the amended claim states. -/
theorem c9_set_io_failure_swallowed_and_unreported_witness :
    diskSet (fun s => s) 10 "k" (some 7) (effectiveTtl none (some 3600))
        .openFail (⟨[], []⟩ : DiskState Nat) = .ok () ⟨[], []⟩ ∧
    diskSet (fun s => s) 10 "k" (some 7) (effectiveTtl none (some 3600))
        .writeFail (⟨[], []⟩ : DiskState Nat) = .ok () ⟨[], []⟩ ∧
    diskSet (fun s => s) 10 "k" (some 7) (effectiveTtl none (some 3600))
        .renameFail (⟨[], []⟩ : DiskState Nat) = .ok () ⟨[], []⟩ ∧
    cmSetDisk (fun s => s) 10 "k" "f" (some 7) none (some 3600) .writeFail
        (⟨[], []⟩ : DiskState Nat) =
      (.ok () ⟨[], []⟩, [⟨.setDone, some "k", some "f", none, none⟩]) ∧
    diskSet (fun s => s) 10 "k" (some 7) (effectiveTtl none (some 3600))
        .mkdirFail (⟨[], []⟩ : DiskState Nat) =
      .raised "UnboundLocalError" ⟨[], []⟩ ∧
    cmSetDisk (fun s => s) 10 "k" "f" (some 7) none (some 3600) .mkdirFail
        (⟨[], []⟩ : DiskState Nat) =
      (.ok () ⟨[], []⟩, [⟨.cacheError, some "k", some "f",
        some "UnboundLocalError", some "set"⟩]) :=
  c9_set_io_failure_swallowed_and_unreported Nat (fun s => s) 10 "k" "f"
    (some 7) none (some 3600) ⟨[], []⟩ rfl rfl

/-- C10: a stored `None` is indistinguishable from absence — after
`set(k, None)` the backend `get` returns Python `None`, so the
orchestrator reports a miss (emits a miss notification and returns
absent), and a subsequent `_get_cached_value` run re-executes the wrapped
function body (`was_cached = False`, one body execution) instead of
serving it from cache. -/
theorem c10_stored_none_reads_as_miss (α : Type) (st : MemState α)
    (hlk : st.locked = false) (k fn : String) (now now' : Nat)
    (ttl sttl : Option Nat) (r : Option α) :
    retOf (pyBind (memSet now k none none st) (memGet now' k)) =
      some none ∧
    (cmGet k fn (memGet now' k (stOf (memSet now k none none st)))).2 =
      [⟨.miss, some k, some fn, none, none⟩] ∧
    gcvRet (gcvWithKey now' k fn ttl sttl (.ret r)
        (stOf (memSet now k none none st))) = some (false, r) ∧
    gcvCalls (gcvWithKey now' k fn ttl sttl (.ret r)
        (stOf (memSet now k none none st))) = 1 := by
  obtain ⟨c, ms, lk⟩ := st
  simp only [MemState.locked] at hlk
  subst hlk
  refine ⟨?_, ?_, ?_, ?_⟩ <;>
    simp [memSet, memGet, pyBind, retOf, stOf, cmGet, gcvWithKey, gcvRet,
      gcvCalls, cmSet, dictLookup_insert, expiredAt, ttlExpiry]

/-- C10 witness: storing `None` under `"k"` in an empty store, the next
orchestrated read is a miss and the decorated call runs the body again. -/
theorem c10_stored_none_reads_as_miss_witness :
    retOf (pyBind (memSet 3 "k" none none (⟨[], none, false⟩ : MemState Nat))
        (memGet 9 "k")) = some none ∧
    (cmGet "k" "f" (memGet 9 "k"
        (stOf (memSet 3 "k" none none (⟨[], none, false⟩ : MemState Nat))))).2 =
      [⟨.miss, some "k", some "f", none, none⟩] ∧
    gcvRet (gcvWithKey 9 "k" "f" none none (.ret (some 25))
        (stOf (memSet 3 "k" none none (⟨[], none, false⟩ : MemState Nat)))) =
      some (false, some 25) ∧
    gcvCalls (gcvWithKey 9 "k" "f" none none (.ret (some 25))
        (stOf (memSet 3 "k" none none (⟨[], none, false⟩ : MemState Nat)))) = 1 :=
  c10_stored_none_reads_as_miss Nat ⟨[], none, false⟩ rfl "k" "f" 3 9
    none none (some 25)

end Retainit
